import Mathlib

/-!
Shallow embedding of the task-analyser scoring engine
(src/tasks/scoring.py and the ranking step of src/tasks/views.py).

Python dictionaries holding task data are modelled by the `Task` structure
whose fields are all `Option`-valued (absent or null keys are `none`).
Python `date` objects are modelled by `Date`; date subtraction goes through
the proleptic Gregorian ordinal exactly as in CPython's `datetime`.
Floating-point scores are idealised as real numbers; `round(x, 2)` is
modelled by `pythonRound2` (round half to even at two decimals).
-/

namespace TaskAnalyser

/-- Gregorian calendar date, modelling Python's `datetime.date`. -/
structure Date where
  year : Int
  month : Int
  day : Int
deriving DecidableEq, Repr

/-- Leap-year test, as in CPython's `datetime._is_leap`. -/
def isLeapYear (y : Int) : Bool :=
  y % 4 == 0 && (y % 100 != 0 || y % 400 == 0)

/-- Number of days in a month, as in CPython's `datetime._days_in_month`. -/
def daysInMonth (y m : Int) : Int :=
  if m = 2 then (if isLeapYear y then 29 else 28)
  else if m = 4 ∨ m = 6 ∨ m = 9 ∨ m = 11 then 30
  else 31

/-- Cumulative days before a given month in a non-leap year
(CPython's `_DAYS_BEFORE_MONTH` table). -/
def daysBeforeMonthTable (m : Int) : Int :=
  if m = 1 then 0 else if m = 2 then 31 else if m = 3 then 59
  else if m = 4 then 90 else if m = 5 then 120 else if m = 6 then 151
  else if m = 7 then 181 else if m = 8 then 212 else if m = 9 then 243
  else if m = 10 then 273 else if m = 11 then 304 else 334

/-- Days before the first of the given month, as in CPython's
`datetime._days_before_month`. -/
def daysBeforeMonth (y m : Int) : Int :=
  daysBeforeMonthTable m + (if 2 < m ∧ isLeapYear y then 1 else 0)

/-- Proleptic Gregorian ordinal of a date, as in CPython's
`datetime.date.toordinal` (day 1 is 0001-01-01).  Python's `//` is floor
division, hence `Int.fdiv`. -/
def toOrdinal (d : Date) : Int :=
  365 * (d.year - 1) + (d.year - 1).fdiv 4 - (d.year - 1).fdiv 100
    + (d.year - 1).fdiv 400 + daysBeforeMonth d.year d.month + d.day

/-- Value of a list of decimal digit characters; `none` if a
non-digit occurs. -/
def digitsToNat (l : List Char) : Option Nat :=
  l.foldl
    (fun acc c =>
      acc.bind (fun n => if c.isDigit then some (n * 10 + (c.toNat - 48)) else none))
    (some 0)

/-- Model of `datetime.strptime(s, "%Y-%m-%d").date()`: the year is exactly
four digits (and at least 1, since `datetime` rejects year 0), month and day
are one or two digits, separated by literal dashes, and the day must exist
in the given month.  Returns `none` where CPython raises `ValueError`. -/
def parseDate (s : String) : Option Date :=
  match s.splitOn "-" with
  | [ys, ms, ds] =>
    if ys.length = 4 ∧ 1 ≤ ms.length ∧ ms.length ≤ 2 ∧ 1 ≤ ds.length ∧ ds.length ≤ 2 then
      match digitsToNat ys.data, digitsToNat ms.data, digitsToNat ds.data with
      | some y, some m, some d =>
        if 1 ≤ y ∧ 1 ≤ m ∧ m ≤ 12 ∧ 1 ≤ d ∧ (d : Int) ≤ daysInMonth y m then
          some ⟨y, m, d⟩
        else none
      | _, _, _ => none
    else none
  | _ => none

/-- A `due_date` dictionary entry: either a string (to be parsed) or an
already-parsed date object. -/
inductive DateVal where
  | str (s : String)
  | dat (d : Date)
deriving DecidableEq

/-- A task record: a Python dict whose keys may each be absent (or null),
modelled as `Option`-valued fields. -/
structure Task where
  id : Option Int
  title : Option String
  due_date : Option DateVal
  estimated_hours : Option ℚ
  importance : Option Int
  dependencies : Option (List Int)
deriving DecidableEq

/-- Dependency list with the default used throughout the source:
`task.get('dependencies', [])`. -/
def getDeps (t : Task) : List Int :=
  t.dependencies.getD []

/-- TaskScorer.validate_task from src/tasks/scoring.py: checks the four
required fields in order, then the importance range, then positivity of the
estimated hours, then parseability of a string due date. -/
def validate_task (t : Task) : Bool × String :=
  match t.title, t.due_date, t.estimated_hours, t.importance with
  | none, _, _, _ => (false, "Missing required field: title")
  | some _, none, _, _ => (false, "Missing required field: due_date")
  | some _, some _, none, _ => (false, "Missing required field: estimated_hours")
  | some _, some _, some _, none => (false, "Missing required field: importance")
  | some _, some due, some hours, some importance =>
    if ¬(1 ≤ importance ∧ importance ≤ 10) then
      (false, "Importance must be between 1-10, got " ++ toString importance)
    else if hours ≤ 0 then
      (false, "Estimated hours must be positive, got " ++ toString hours)
    else
      match due with
      | DateVal.str s =>
        if (parseDate s).isNone then (false, "Invalid date format. Use YYYY-MM-DD")
        else (true, "")
      | DateVal.dat _ => (true, "")

/-- Error taxonomy of the validator, as the specification names it. -/
inductive ValidationError where
  | MissingField (field : String)
  | OutOfRange (value : Int)
  | InvalidEffort (value : ℚ)
  | InvalidDate
deriving DecidableEq

/-- Validator written from the specification's words: the first
absent-or-null field among title, due_date, estimated_hours, importance (in
that order) gives `MissingField`; then an importance outside [1,10] gives
`OutOfRange` carrying the offending value; then non-positive hours give
`InvalidEffort`; then an unparseable string due date gives `InvalidDate`;
otherwise no error. -/
def validateSpec (t : Task) : Option ValidationError :=
  match t.title, t.due_date, t.estimated_hours, t.importance with
  | none, _, _, _ => some (ValidationError.MissingField "title")
  | some _, none, _, _ => some (ValidationError.MissingField "due_date")
  | some _, some _, none, _ => some (ValidationError.MissingField "estimated_hours")
  | some _, some _, some _, none => some (ValidationError.MissingField "importance")
  | some _, some due, some hours, some importance =>
    if ¬(1 ≤ importance ∧ importance ≤ 10) then
      some (ValidationError.OutOfRange importance)
    else if hours ≤ 0 then
      some (ValidationError.InvalidEffort hours)
    else
      match due with
      | DateVal.str s =>
        if (parseDate s).isNone then some ValidationError.InvalidDate else none
      | DateVal.dat _ => none

/-- The failure message validate_task produces for each spec-level error,
and the success value when there is none. -/
def renderError : Option ValidationError → Bool × String
  | some (ValidationError.MissingField f) => (false, "Missing required field: " ++ f)
  | some (ValidationError.OutOfRange v) =>
      (false, "Importance must be between 1-10, got " ++ toString v)
  | some (ValidationError.InvalidEffort v) =>
      (false, "Estimated hours must be positive, got " ++ toString v)
  | some ValidationError.InvalidDate => (false, "Invalid date format. Use YYYY-MM-DD")
  | none => (true, "")

/-! ## Strategy scorers (src/tasks/scoring.py, TaskScorer)

Scores are idealised real numbers; each scorer returns the score together
with the ordered list of reason strings its branches append. -/

/-- Urgency term of the balanced strategy together with its reason string,
as a function of `days_until_due` (scoring.py lines 65-83).  The overdue
branch is `100 + overdue_days ** 1.5`, modelled with the real power. -/
noncomputable def urgencyPair (days : Int) : ℝ × String :=
  if days < 0 then
    (100 + (days.natAbs : ℝ) ^ (1.5 : ℝ),
      "⚠️ OVERDUE by " ++ toString days.natAbs ++ " days")
  else if days = 0 then (95, "🔥 Due TODAY")
  else if days ≤ 2 then (80, "⏰ Due in " ++ toString days ++ " days")
  else if days ≤ 7 then (50, "📅 Due this week")
  else (max 10 (50 - ((days : ℝ) - 7) * 2),
    "📆 Due in " ++ toString days ++ " days")

/-- Effort bonus of the balanced strategy with its reason strings
(scoring.py lines 93-104); the 2-4 hour branch appends no reason. -/
noncomputable def effortPair (hours : ℚ) : ℝ × List String :=
  if hours ≤ 1 then (25, ["⚡ Quick win (≤1hr)"])
  else if hours ≤ 2 then (15, ["✨ Fast task (≤2hrs)"])
  else if hours ≤ 4 then (5, [])
  else (-5, ["⏳ Long task (" ++ toString hours ++ "hrs)"])

/-- Number of tasks in `all_tasks` whose dependency list contains
`task_id` (scoring.py lines 110-113). -/
def blocking_count (task_id : Int) (all_tasks : List Task) : ℕ :=
  all_tasks.countP (fun t => decide (task_id ∈ getDeps t))

/-- TaskScorer._calculate_smart_balance: urgency + importance × 8 + effort
bonus + (blocking count × 20 when positive), with the reasons appended in
that evaluation order. -/
noncomputable def calculate_smart_balance (due : Date) (importance : Int)
    (estimated_hours : ℚ) (all_tasks : List Task) (task_id : Int)
    (today : Date) : ℝ × List String :=
  let days := toOrdinal due - toOrdinal today
  let u := urgencyPair days
  let e := effortPair estimated_hours
  let bc := blocking_count task_id all_tasks
  (u.1 + (importance : ℝ) * 8 + e.1 + (if 0 < bc then (bc : ℝ) * 20 else 0),
    [u.2, "💎 Importance: " ++ toString importance ++ "/10"] ++ e.2
      ++ (if 0 < bc then ["🔓 Unblocks " ++ toString bc ++ " task(s)"] else []))

/-- Effort tier of the fastest_wins strategy with its reason strings
(scoring.py lines 126-136). -/
noncomputable def fastestPair (hours : ℚ) : ℝ × List String :=
  if hours ≤ 1 then (100, ["⚡ Ultra-fast (<1hr)"])
  else if hours ≤ 2 then (70, ["✨ Fast (1-2hrs)"])
  else if hours ≤ 4 then (40, [])
  else (10, [])

/-- TaskScorer._calculate_fastest_wins: effort tiers plus importance × 3. -/
noncomputable def calculate_fastest_wins (estimated_hours : ℚ)
    (importance : Int) : ℝ × List String :=
  let t := fastestPair estimated_hours
  (t.1 + (importance : ℝ) * 3, t.2 ++ ["Importance: " ++ toString importance ++ "/10"])

/-- TaskScorer._calculate_high_impact: importance × 15 plus a minor urgency
kicker (+30 overdue, +15 when due within 3 days). -/
noncomputable def calculate_high_impact (importance : Int) (due : Date)
    (today : Date) : ℝ × List String :=
  let days := toOrdinal due - toOrdinal today
  let base : ℝ := (importance : ℝ) * 15
  let r0 := ["💎 High Impact: " ++ toString importance ++ "/10"]
  if days < 0 then (base + 30, r0 ++ ["Also overdue"])
  else if days ≤ 3 then (base + 15, r0)
  else (base, r0)

/-- Deadline tier of the deadline_driven strategy with its reason string
(scoring.py lines 164-175). -/
noncomputable def deadlinePair (days : Int) : ℝ × String :=
  if days < 0 then
    (200 + (days.natAbs : ℝ) * 10,
      "⚠️ OVERDUE by " ++ toString days.natAbs ++ " days")
  else if days = 0 then (180, "🔥 Due TODAY")
  else if days ≤ 7 then
    (150 - (days : ℝ) * 10, "⏰ Due in " ++ toString days ++ " days")
  else (max 20 (100 - (days : ℝ)), "📅 " ++ toString days ++ " days away")

/-- TaskScorer._calculate_deadline_driven: deadline tiers plus
importance × 2 as a tie-breaker. -/
noncomputable def calculate_deadline_driven (due : Date) (importance : Int)
    (today : Date) : ℝ × List String :=
  let t := deadlinePair (toOrdinal due - toOrdinal today)
  (t.1 + (importance : ℝ) * 2, [t.2])

/-- Python's `round(x, 2)` idealised over the reals: round half to even at
two decimal places. -/
noncomputable def pythonRound2 (x : ℝ) : ℝ :=
  if x * 100 - ⌊x * 100⌋ < 1 / 2 then (⌊x * 100⌋ : ℝ) / 100
  else if x * 100 - ⌊x * 100⌋ = 1 / 2 then
    (if 2 ∣ ⌊x * 100⌋ then (⌊x * 100⌋ : ℝ) / 100 else ((⌊x * 100⌋ : ℝ) + 1) / 100)
  else ((⌊x * 100⌋ : ℝ) + 1) / 100

/-- TaskScorer.calculate_score: normalise the due date (`none` models the
exception CPython raises on an unparseable string, or on subtracting a
missing date inside a date-using strategy), fill the documented defaults,
dispatch on the strategy tag, round and join the reasons. -/
noncomputable def calculate_score (strategy : String) (task : Task)
    (all_tasks : List Task) (today : Date) : Option (ℝ × String) :=
  let parsed : Option (Option Date) :=
    match task.due_date with
    | some (DateVal.str s) =>
      match parseDate s with
      | some d => some (some d)
      | none => none
    | some (DateVal.dat d) => some (some d)
    | none => some none
  match parsed with
  | none => none
  | some due_date =>
    let importance := task.importance.getD 5
    let estimated_hours := task.estimated_hours.getD 1
    let task_id := task.id.getD 0
    let result : Option (ℝ × List String) :=
      if strategy = "fastest_wins" then
        some (calculate_fastest_wins estimated_hours importance)
      else if strategy = "high_impact" then
        due_date.map (fun d => calculate_high_impact importance d today)
      else if strategy = "deadline_driven" then
        due_date.map (fun d => calculate_deadline_driven d importance today)
      else
        due_date.map (fun d =>
          calculate_smart_balance d importance estimated_hours all_tasks task_id today)
    result.map (fun p => (pythonRound2 p.1, String.intercalate " | " p.2))

/-! ## Cycle detection (scoring.py lines 182-215)

Python sets are modelled as lists queried only through membership;
`insertOnce` is `set.add`, `List.erase` is `set.remove`.  The dict
`task_map` is an association list in insertion order (`upsert` replaces the
value of an existing key in place, as dict assignment does).  The recursion
of `has_cycle` is run on explicit fuel; `detect_circular_dependencies`
supplies `tasks.length + 1`, which bounds the depth of the search (each
nested call visits a previously unvisited node, and nodes without a map
entry recurse no further), so the fuel-exhaustion branch is never taken. -/

/-- Add an element to a set modelled as a list. -/
def insertOnce (l : List Int) (x : Int) : List Int :=
  if x ∈ l then l else x :: l

/-- Dict insertion: replace the value at an existing key in place,
otherwise append the new binding. -/
def upsert (k : Int) (v : Task) : List (Int × Task) → List (Int × Task)
  | [] => [(k, v)]
  | p :: rest => if k = p.1 then (k, v) :: rest else p :: upsert k v rest

/-- The task map `{t.get('id', i): t for i, t in enumerate(tasks)}`. -/
def build_task_map (tasks : List Task) : List (Int × Task) :=
  tasks.enum.foldl (fun m p => upsert (p.2.id.getD (p.1 : Int)) p.2 m) []

/-- The `for dep_id in task.get('dependencies', [])` loop of `has_cycle`:
`next` is the recursive call one fuel level down; the loop exits early with
`True` and otherwise threads the visited set through the iterations. -/
def depLoop (next : Int → List Int → List Int → Bool × List Int × List Int) :
    List Int → List Int → List Int → Bool × List Int × List Int
  | [], v, r => (false, v, r)
  | dep :: rest, v, r =>
    if dep ∉ v then
      match next dep v r with
      | (true, v1, r1) => (true, v1, r1)
      | (false, v1, r1) => depLoop next rest v1 r1
    else if dep ∈ r then (true, v, r)
    else depLoop next rest v r

/-- The dependency list `task_map.get(task_id)` hands to the loop: the
looked-up task's dependencies, or nothing when the id has no entry. -/
def depsOf (tm : List (Int × Task)) (u : Int) : List Int :=
  match List.lookup u tm with
  | some t => getDeps t
  | none => []

/-- The inner `has_cycle(task_id, visited, rec_stack, task_map)` of
`detect_circular_dependencies`, returning the result together with the
mutated visited set and recursion stack.  On a `True` exit the recursion
stack is left as is (Python returns before the `remove`); on a `False` exit
the node is removed from it. -/
def hasCycle (tm : List (Int × Task)) :
    ℕ → Int → List Int → List Int → Bool × List Int × List Int
  | 0, _, visited, recstack => (false, visited, recstack)
  | fuel + 1, u, visited, recstack =>
    match depLoop (hasCycle tm fuel) (depsOf tm u)
        (insertOnce visited u) (insertOnce recstack u) with
    | (true, v, r) => (true, v, r)
    | (false, v, r) => (false, v, r.erase u)

/-- TaskScorer.detect_circular_dependencies: run the DFS from every not yet
visited key of the task map, in key order, collecting the string form of
each root whose search finds a cycle. -/
def detect_circular_dependencies (tasks : List Task) : List String :=
  let tm := build_task_map tasks
  let fuel := tasks.length + 1
  (tm.foldl
    (fun st p =>
      if p.1 ∉ st.1 then
        ((hasCycle tm fuel p.1 st.1 []).2.1,
          if (hasCycle tm fuel p.1 st.1 []).1 then st.2 ++ [toString p.1]
          else st.2)
      else st)
    (([] : List Int), ([] : List String))).2

/-- Sample date used by concrete witnesses. -/
def sampleDay : Date := ⟨2026, 10, 12⟩

/-- Task carrying only an id and a dependency list, as in the repository's
own cycle-detection test fixtures. -/
def depTask (i : Int) (deps : List Int) : Task :=
  ⟨some i, none, none, none, none, some deps⟩

/-- The strategy dispatch of calculate_score once the due date is known
(scoring.py lines 43-53). -/
noncomputable def scoreCore (strategy : String) (d : Date) (imp : Int)
    (hrs : ℚ) (all_tasks : List Task) (tid : Int) (today : Date) :
    ℝ × List String :=
  if strategy = "fastest_wins" then calculate_fastest_wins hrs imp
  else if strategy = "high_impact" then calculate_high_impact imp d today
  else if strategy = "deadline_driven" then calculate_deadline_driven d imp today
  else calculate_smart_balance d imp hrs all_tasks tid today

/-! ## C7: ranking is a stable descending sort (views.py lines 59-71)

A task dict with its two derived fields attached; Python's
`list.sort(key=priority_score, reverse=True)` is Timsort, a stable
descending sort, embedded as insertion sort with an insert that places a
task before the first existing task of less-than-or-equal score (so equal
scores keep input order). -/

structure ScoredTask where
  task : Task
  priority_score : ℝ
  explanation : String

/-- The descending comparison used by the ranking sort. -/
def scoreGE (a b : ScoredTask) : Prop :=
  b.priority_score ≤ a.priority_score

noncomputable instance : DecidableRel scoreGE :=
  fun a b => Real.decidableLE _ _

/-- The sort of views.py line 71: scored tasks by priority score,
highest first, stable. -/
noncomputable def rankTasks (l : List ScoredTask) : List ScoredTask :=
  l.insertionSort scoreGE

/-- The scoring loop of analyze_tasks (views.py lines 60-68): each
validated task is scored against the full validated set; `none` models the
exception an unparseable date would raise. -/
noncomputable def score_all (strategy : String) (tasks : List Task)
    (today : Date) : Option (List ScoredTask) :=
  tasks.mapM (fun t =>
    (calculate_score strategy t tasks today).map (fun p => ⟨t, p.1, p.2⟩))

/-- The ranked output of analyze_tasks (views.py lines 59-71). -/
noncomputable def analyze_ranked (strategy : String) (tasks : List Task)
    (today : Date) : Option (List ScoredTask) :=
  (score_all strategy tasks today).map rankTasks

/-! ## C8: dangling dependency ids are inert

`pruneTasks` removes every dependency edge pointing at an id with no entry
in the task map.  The claim is settled by showing that this pruning changes
neither the cycle detector's output nor any present id's blocking count,
and that scoring a validated task always completes (returns a value)
whatever ids its dependency lists mention. -/

def presentIds (tasks : List Task) : List Int :=
  (build_task_map tasks).map Prod.fst

def pruneTask (ks : List Int) (t : Task) : Task :=
  ⟨t.id, t.title, t.due_date, t.estimated_hours, t.importance,
    t.dependencies.map (fun l => l.filter (fun d => decide (d ∈ ks)))⟩

def pruneTasks (tasks : List Task) : List Task :=
  tasks.map (pruneTask (presentIds tasks))

def pruneMap (ks : List Int) (tm : List (Int × Task)) : List (Int × Task) :=
  tm.map (fun p => (p.1, pruneTask ks p.2))

def PruneInv (tmO : List (Int × Task)) (ks : List Int) (fuel : ℕ) : Prop :=
  ∀ (u : Int) (v1 v2 r : List Int),
    u ∈ ks →
    (∀ k, k ∈ ks → (k ∈ v1 ↔ k ∈ v2)) →
    (∀ x, x ∈ r → x ∈ ks) →
    (∀ x, x ∈ r → x ∈ v1) →
    (∀ x, x ∈ r → x ∈ v2) →
    u ∉ v1 → u ∉ v2 →
    (hasCycle tmO fuel u v1 r).1 = (hasCycle (pruneMap ks tmO) fuel u v2 r).1
    ∧ (∀ k, k ∈ ks →
        ((k ∈ (hasCycle tmO fuel u v1 r).2.1)
          ↔ (k ∈ (hasCycle (pruneMap ks tmO) fuel u v2 r).2.1)))
    ∧ (∀ x, x ∈ v1 → x ∈ (hasCycle tmO fuel u v1 r).2.1)
    ∧ (∀ x, x ∈ v2 → x ∈ (hasCycle (pruneMap ks tmO) fuel u v2 r).2.1)
    ∧ ((hasCycle tmO fuel u v1 r).1 = false →
        (hasCycle tmO fuel u v1 r).2.2 = r
        ∧ (hasCycle (pruneMap ks tmO) fuel u v2 r).2.2 = r)

/-! ## Basic facts about the scoring terms -/

/-- The urgency term of the balanced strategy is at least 10 on every
branch. -/
lemma urgencyPair_fst_ge_ten (d : Int) : (10 : ℝ) ≤ (urgencyPair d).1 := by
  unfold urgencyPair
  split_ifs with h1 h2 h3 h4
  · have : (0 : ℝ) ≤ (d.natAbs : ℝ) ^ (1.5 : ℝ) :=
      Real.rpow_nonneg (by positivity) _
    simp only
    linarith
  · norm_num
  · norm_num
  · norm_num
  · simp only [le_max_iff]
    norm_num

/-- On the overdue branch the urgency term is at least 100. -/
lemma urgencyPair_fst_ge_hundred {d : Int} (hd : d < 0) :
    (100 : ℝ) ≤ (urgencyPair d).1 := by
  unfold urgencyPair
  rw [if_pos hd]
  have : (0 : ℝ) ≤ (d.natAbs : ℝ) ^ (1.5 : ℝ) :=
    Real.rpow_nonneg (by positivity) _
  simp only
  linarith

/-- For a strictly future due date the urgency term is at most 80. -/
lemma urgencyPair_fst_le_eighty {d : Int} (hd : 0 < d) :
    (urgencyPair d).1 ≤ 80 := by
  unfold urgencyPair
  rw [if_neg (by omega), if_neg (by omega)]
  split_ifs with h3 h4
  · norm_num
  · norm_num
  · have hd8 : (8 : ℝ) ≤ (d : ℝ) := by exact_mod_cast (by omega : (8 : ℤ) ≤ d)
    simp only [max_le_iff]
    constructor <;> linarith

/-- The effort bonus is at least −5 on every branch. -/
lemma effortPair_fst_ge (h : ℚ) : (-5 : ℝ) ≤ (effortPair h).1 := by
  unfold effortPair
  split_ifs <;> norm_num

/-- Rounding an integer at two decimals returns it unchanged. -/
lemma pythonRound2_intCast (n : ℤ) : pythonRound2 (n : ℝ) = n := by
  unfold pythonRound2
  have hfl : ⌊(n : ℝ) * 100⌋ = n * 100 := by
    rw [show ((n : ℝ) * 100) = ((n * 100 : ℤ) : ℝ) by push_cast; ring, Int.floor_intCast]
  rw [hfl]
  rw [if_pos (by push_cast; norm_num)]
  push_cast
  ring

/-- Rounding at two decimals never drops below an integer lower bound. -/
lemma pythonRound2_ge {x : ℝ} {n : ℤ} (h : (n : ℝ) ≤ x) :
    (n : ℝ) ≤ pythonRound2 x := by
  unfold pythonRound2
  have hn : (n * 100 : ℤ) ≤ ⌊x * 100⌋ := by
    rw [Int.le_floor]
    push_cast
    nlinarith
  have hn' : (n : ℝ) * 100 ≤ (⌊x * 100⌋ : ℝ) := by exact_mod_cast hn
  split_ifs <;> linarith

/-! ## C6: the validator -/

/-- A rendered validator result succeeds exactly when there is no error. -/
lemma renderError_fst (e : Option ValidationError) :
    (renderError e).1 = true ↔ e = none := by
  cases e with
  | none => simp [renderError]
  | some v => cases v <;> simp [renderError]

/-- C6: validate_task fails exactly when one of its checks fails, applying
them in a fixed order — first a MissingField error naming the first
absent-or-null field among title, due_date, estimated_hours, importance;
then an OutOfRange error including the offending value when importance is
not in [1,10]; then an InvalidEffort error when estimated_hours ≤ 0; then
an InvalidDate error when due_date is a string that does not parse as
YYYY-MM-DD; otherwise it succeeds with no error.  Stated as: validate_task
agrees with the specification-level validator `validateSpec` rendered to
the source's messages, and succeeds iff `validateSpec` reports no error. -/
theorem claim_C6_validate_task_matches_spec (t : Task) :
    validate_task t = renderError (validateSpec t)
      ∧ ((validate_task t).1 = true ↔ validateSpec t = none) := by
  have h : validate_task t = renderError (validateSpec t) := by
    obtain ⟨id, title, due, hrs, imp, deps⟩ := t
    rcases title with _ | t1 <;> rcases due with _ | s | d <;>
        rcases hrs with _ | h1 <;> rcases imp with _ | i1 <;>
      simp only [validate_task, validateSpec, renderError] <;>
      try rfl
    all_goals split_ifs <;> rfl
  exact ⟨h, by rw [h]; exact renderError_fst _⟩

/-- The fastest_wins effort tier is at least 10 on every branch. -/
lemma fastestPair_fst_ge_ten (h : ℚ) : (10 : ℝ) ≤ (fastestPair h).1 := by
  unfold fastestPair
  split_ifs <;> norm_num

/-- For an overdue task the deadline tier is at least 210. -/
lemma deadlinePair_fst_ge {d : Int} (hd : d < 0) :
    (210 : ℝ) ≤ (deadlinePair d).1 := by
  unfold deadlinePair
  rw [if_pos hd]
  have h1 : 1 ≤ d.natAbs := by omega
  have h1r : (1 : ℝ) ≤ (d.natAbs : ℝ) := by exact_mod_cast h1
  simp only
  linarith

/-- For a strictly future due date the deadline tier is at most 140. -/
lemma deadlinePair_fst_le {d : Int} (hd : 0 < d) :
    (deadlinePair d).1 ≤ 140 := by
  unfold deadlinePair
  rw [if_neg (by omega), if_neg (by omega)]
  split_ifs with h7
  · have : (1 : ℝ) ≤ (d : ℝ) := by exact_mod_cast hd
    simp only
    linarith
  · have : (8 : ℝ) ≤ (d : ℝ) := by exact_mod_cast (by omega : (8 : ℤ) ≤ d)
    simp only [max_le_iff]
    constructor <;> linarith

/-- The deadline tier is at least 20 on every branch. -/
lemma deadlinePair_fst_ge_twenty (d : Int) : (20 : ℝ) ≤ (deadlinePair d).1 := by
  unfold deadlinePair
  split_ifs with h1 h2 h3
  · have h1' : (0 : ℝ) ≤ (d.natAbs : ℝ) := by positivity
    simp only
    linarith
  · norm_num
  · have : (d : ℝ) ≤ 7 := by exact_mod_cast h3
    simp only
    linarith
  · simp only [le_max_iff]
    norm_num

/-! ## C2: the blocking bonus of the balanced strategy -/

/-- C2: if exactly k > 0 tasks in allTasks have X's id as a member of their
dependencies list, X's balanced score equals the sum of its urgency,
importance and effort terms plus exactly 20·k; if k = 0 no blocking term is
added. -/
theorem claim_C2_blocking_bonus (due today : Date) (importance : Int)
    (hours : ℚ) (all_tasks : List Task) (task_id : Int) (k : ℕ)
    (hk : all_tasks.countP (fun t => decide (task_id ∈ getDeps t)) = k) :
    (0 < k →
      (calculate_smart_balance due importance hours all_tasks task_id today).1
        = (urgencyPair (toOrdinal due - toOrdinal today)).1
          + (importance : ℝ) * 8 + (effortPair hours).1 + 20 * (k : ℝ))
    ∧ (k = 0 →
      (calculate_smart_balance due importance hours all_tasks task_id today).1
        = (urgencyPair (toOrdinal due - toOrdinal today)).1
          + (importance : ℝ) * 8 + (effortPair hours).1) := by
  constructor <;> intro h
  · simp only [calculate_smart_balance, blocking_count, hk, if_pos h]
    ring
  · simp only [calculate_smart_balance, blocking_count, hk, h]
    norm_num

/-- C2 witness: two tasks listing id 1 as a dependency add exactly 40. -/
theorem claim_C2_blocking_bonus_witness :
    (calculate_smart_balance sampleDay 5 1 [depTask 2 [1], depTask 3 [1]] 1 sampleDay).1
      = (urgencyPair (toOrdinal sampleDay - toOrdinal sampleDay)).1
        + ((5 : Int) : ℝ) * 8 + (effortPair 1).1 + 20 * ((2 : ℕ) : ℝ) :=
  (claim_C2_blocking_bonus sampleDay sampleDay 5 1 [depTask 2 [1], depTask 3 [1]] 1 2
    (by decide)).1 (by norm_num)

/-! ## C4: strict monotonicity in importance -/

/-- C4: of two tasks identical in all fields except importance (both in
[1,10]), the one with strictly higher importance scores strictly higher
under the balanced, importance-first and deadline-first strategies. -/
theorem claim_C4_importance_monotone (due today : Date) (i1 i2 : Int)
    (hours : ℚ) (all_tasks : List Task) (task_id : Int)
    (hlo : 1 ≤ i1) (hhi : i2 ≤ 10) (hlt : i1 < i2) :
    (calculate_smart_balance due i1 hours all_tasks task_id today).1
      < (calculate_smart_balance due i2 hours all_tasks task_id today).1
    ∧ (calculate_high_impact i1 due today).1
      < (calculate_high_impact i2 due today).1
    ∧ (calculate_deadline_driven due i1 today).1
      < (calculate_deadline_driven due i2 today).1 := by
  have hc : (i1 : ℝ) < (i2 : ℝ) := by exact_mod_cast hlt
  refine ⟨?_, ?_, ?_⟩
  · simp only [calculate_smart_balance]
    linarith
  · simp only [calculate_high_impact]
    split_ifs <;> simp only <;> linarith
  · simp only [calculate_deadline_driven]
    linarith

/-- C4 witness at importance 3 versus 7, due on the sample day. -/
theorem claim_C4_importance_monotone_witness :
    (calculate_smart_balance sampleDay 3 1 [] 1 sampleDay).1
      < (calculate_smart_balance sampleDay 7 1 [] 1 sampleDay).1
    ∧ (calculate_high_impact 3 sampleDay sampleDay).1
      < (calculate_high_impact 7 sampleDay sampleDay).1
    ∧ (calculate_deadline_driven sampleDay 3 sampleDay).1
      < (calculate_deadline_driven sampleDay 7 sampleDay).1 :=
  claim_C4_importance_monotone sampleDay sampleDay 3 7 1 [] 1
    (by norm_num) (by norm_num) (by norm_num)

/-! ## C5: overdue beats future -/

/-- C5: of two tasks identical in all fields except the due date, one
overdue and one due strictly in the future, the overdue one scores strictly
higher under the balanced and deadline-first strategies. -/
theorem claim_C5_overdue_beats_future (due1 due2 today : Date)
    (importance : Int) (hours : ℚ) (all_tasks : List Task) (task_id : Int)
    (h1 : toOrdinal due1 < toOrdinal today)
    (h2 : toOrdinal today < toOrdinal due2) :
    (calculate_smart_balance due2 importance hours all_tasks task_id today).1
      < (calculate_smart_balance due1 importance hours all_tasks task_id today).1
    ∧ (calculate_deadline_driven due2 importance today).1
      < (calculate_deadline_driven due1 importance today).1 := by
  have hd1 : toOrdinal due1 - toOrdinal today < 0 := by omega
  have hd2 : 0 < toOrdinal due2 - toOrdinal today := by omega
  constructor
  · have hu1 := urgencyPair_fst_ge_hundred hd1
    have hu2 := urgencyPair_fst_le_eighty hd2
    simp only [calculate_smart_balance]
    linarith
  · have hb1 := deadlinePair_fst_ge hd1
    have hb2 := deadlinePair_fst_le hd2
    simp only [calculate_deadline_driven]
    linarith

/-- C5 witness: due one day early versus one day late around the sample
day. -/
theorem claim_C5_overdue_beats_future_witness :
    (calculate_smart_balance ⟨2026, 10, 13⟩ 5 1 [] 1 sampleDay).1
      < (calculate_smart_balance ⟨2026, 10, 11⟩ 5 1 [] 1 sampleDay).1
    ∧ (calculate_deadline_driven ⟨2026, 10, 13⟩ 5 sampleDay).1
      < (calculate_deadline_driven ⟨2026, 10, 11⟩ 5 sampleDay).1 :=
  claim_C5_overdue_beats_future ⟨2026, 10, 11⟩ ⟨2026, 10, 13⟩ sampleDay 5 1 [] 1
    (by decide) (by decide)

/-! ## C3: the concrete due-today scenario -/

/-- C3: a task due on the current date with importance 5, estimated_hours 1
and no task depending on it scores exactly 160.00 under the balanced
strategy, and its explanation contains the fragments "Due TODAY",
"Importance: 5/10" and "Quick win". -/
theorem claim_C3_due_today_scenario (today : Date) (t : Task)
    (all_tasks : List Task)
    (hdue : t.due_date = some (DateVal.dat today))
    (himp : t.importance = some 5) (hhrs : t.estimated_hours = some 1)
    (hblock : blocking_count (t.id.getD 0) all_tasks = 0) :
    calculate_score "smart_balance" t all_tasks today
      = some (160, "🔥 Due TODAY | 💎 Importance: 5/10 | ⚡ Quick win (≤1hr)")
    ∧ (∃ a b, "🔥 Due TODAY | 💎 Importance: 5/10 | ⚡ Quick win (≤1hr)"
        = a ++ "Due TODAY" ++ b)
    ∧ (∃ a b, "🔥 Due TODAY | 💎 Importance: 5/10 | ⚡ Quick win (≤1hr)"
        = a ++ "Importance: 5/10" ++ b)
    ∧ (∃ a b, "🔥 Due TODAY | 💎 Importance: 5/10 | ⚡ Quick win (≤1hr)"
        = a ++ "Quick win" ++ b) := by
  refine ⟨?_, ⟨"🔥 ", " | 💎 Importance: 5/10 | ⚡ Quick win (≤1hr)", by decide⟩,
    ⟨"🔥 Due TODAY | 💎 ", " | ⚡ Quick win (≤1hr)", by decide⟩,
    ⟨"🔥 Due TODAY | 💎 Importance: 5/10 | ⚡ ", " (≤1hr)", by decide⟩⟩
  simp only [calculate_score, hdue, himp, hhrs]
  rw [if_neg (by decide), if_neg (by decide), if_neg (by decide)]
  simp only [Option.map_some', Option.getD_some, calculate_smart_balance, hblock,
    urgencyPair, effortPair, sub_self]
  norm_num
  constructor
  · rw [show (160 : ℝ) = ((160 : Int) : ℝ) by norm_num]
    exact pythonRound2_intCast 160
  · decide

/-- C3 witness on the sample day with an otherwise empty task set. -/
theorem claim_C3_due_today_scenario_witness :
    calculate_score "smart_balance"
        ⟨some 1, some "w", some (DateVal.dat sampleDay), some 1, some 5, some []⟩
        [] sampleDay
      = some (160, "🔥 Due TODAY | 💎 Importance: 5/10 | ⚡ Quick win (≤1hr)") :=
  (claim_C3_due_today_scenario sampleDay
    ⟨some 1, some "w", some (DateVal.dat sampleDay), some 1, some 5, some []⟩
    [] rfl rfl rfl (by decide)).1

/-! ## C10: validated tasks always score at least 13 -/

/-- Rounding at two decimals preserves the lower bound 13. -/
lemma pythonRound2_ge_thirteen {x : ℝ} (h : (13 : ℝ) ≤ x) :
    (13 : ℝ) ≤ pythonRound2 x := by
  have h13 : ((13 : Int) : ℝ) ≤ x := by exact_mod_cast h
  have := pythonRound2_ge h13
  exact_mod_cast this

/-- calculate_score on a task holding an already-parsed date object. -/
lemma calculate_score_of_dat {t : Task} {d : Date} (strategy : String)
    (all_tasks : List Task) (today : Date)
    (hdd : t.due_date = some (DateVal.dat d)) :
    calculate_score strategy t all_tasks today
      = some (pythonRound2
          (scoreCore strategy d (t.importance.getD 5) (t.estimated_hours.getD 1)
            all_tasks (t.id.getD 0) today).1,
        String.intercalate " | "
          (scoreCore strategy d (t.importance.getD 5) (t.estimated_hours.getD 1)
            all_tasks (t.id.getD 0) today).2) := by
  simp only [calculate_score, hdd, scoreCore]
  split_ifs <;> simp [Option.map_some']

/-- calculate_score on a task holding a date string that parses. -/
lemma calculate_score_of_str {t : Task} {s : String} {d : Date}
    (strategy : String) (all_tasks : List Task) (today : Date)
    (hdd : t.due_date = some (DateVal.str s)) (hp : parseDate s = some d) :
    calculate_score strategy t all_tasks today
      = some (pythonRound2
          (scoreCore strategy d (t.importance.getD 5) (t.estimated_hours.getD 1)
            all_tasks (t.id.getD 0) today).1,
        String.intercalate " | "
          (scoreCore strategy d (t.importance.getD 5) (t.estimated_hours.getD 1)
            all_tasks (t.id.getD 0) today).2) := by
  simp only [calculate_score, hdd, hp, scoreCore]
  split_ifs <;> simp [Option.map_some']

/-- Every strategy's raw score is at least 13 when the importance is at
least 1. -/
lemma scoreCore_fst_ge_thirteen (strategy : String) (d : Date) {imp : Int}
    (hrs : ℚ) (all_tasks : List Task) (tid : Int) (today : Date)
    (hi : 1 ≤ imp) :
    (13 : ℝ) ≤ (scoreCore strategy d imp hrs all_tasks tid today).1 := by
  have hi' : (1 : ℝ) ≤ (imp : ℝ) := by exact_mod_cast hi
  unfold scoreCore
  split_ifs
  · unfold calculate_fastest_wins
    have := fastestPair_fst_ge_ten hrs
    simp only
    linarith
  · simp only [calculate_high_impact]
    split_ifs <;> simp only <;> linarith
  · unfold calculate_deadline_driven
    have := deadlinePair_fst_ge_twenty (toOrdinal d - toOrdinal today)
    simp only
    linarith
  · unfold calculate_smart_balance
    have hu := urgencyPair_fst_ge_ten (toOrdinal d - toOrdinal today)
    have he := effortPair_fst_ge hrs
    have hb : (0 : ℝ) ≤
        (if 0 < blocking_count tid all_tasks
          then (blocking_count tid all_tasks : ℝ) * 20 else 0) := by
      split_ifs <;> positivity
    simp only
    linarith

/-- C10: for every task satisfying the validator's preconditions and every
strategy tag, calculate_score returns a score of at least 13 (in
particular, a strictly positive score). -/
theorem claim_C10_min_score (strategy : String) (task : Task)
    (all_tasks : List Task) (today : Date)
    (hval : (validate_task task).1 = true) :
    ∃ p, calculate_score strategy task all_tasks today = some p
      ∧ (13 : ℝ) ≤ p.1 := by
  obtain ⟨id, title, due, hrs, imp, deps⟩ := task
  rcases title with _ | t1
  · simp [validate_task] at hval
  rcases due with _ | dv
  · simp [validate_task] at hval
  rcases hrs with _ | h1
  · simp [validate_task] at hval
  rcases imp with _ | i1
  · simp [validate_task] at hval
  simp only [validate_task] at hval
  rcases dv with s | d
  · split_ifs at hval with hc1 hc2
    cases hp : parseDate s with
    | none => simp [hp] at hval
    | some d =>
      refine ⟨_, calculate_score_of_str strategy all_tasks today rfl hp, ?_⟩
      exact pythonRound2_ge_thirteen
        (scoreCore_fst_ge_thirteen strategy d _ all_tasks _ today hc1.1)
  · split_ifs at hval with hc1 hc2
    refine ⟨_, calculate_score_of_dat strategy all_tasks today rfl, ?_⟩
    exact pythonRound2_ge_thirteen
      (scoreCore_fst_ge_thirteen strategy d _ all_tasks _ today hc1.1)

/-- C10 witness: a fully validated sample task scores at least 13 under the
fastest_wins strategy. -/
theorem claim_C10_min_score_witness :
    ∃ p, calculate_score "fastest_wins"
        ⟨some 1, some "w", some (DateVal.dat sampleDay), some 6, some 1, some []⟩
        [] sampleDay = some p ∧ (13 : ℝ) ≤ p.1 :=
  claim_C10_min_score "fastest_wins"
    ⟨some 1, some "w", some (DateVal.dat sampleDay), some 6, some 1, some []⟩
    [] sampleDay (by decide)

/-! ## C1: what the cycle detector reports

The depth-first search appends only the string form of the root of the
traversal that found a cycle, so on the three-cycle it returns exactly
["1"], not all three ids. -/

/-- C1 counterexample: on the dependency graph 1→2→3→1 the detector
returns exactly ["1"]; the ids 2 and 3 are not in the result, refuting the
claim that the result contains the ids of all three tasks. -/
theorem claim_C1_counterexample :
    detect_circular_dependencies [depTask 1 [2], depTask 2 [3], depTask 3 [1]]
      = ["1"]
    ∧ "2" ∉ detect_circular_dependencies
        [depTask 1 [2], depTask 2 [3], depTask 3 [1]]
    ∧ "3" ∉ detect_circular_dependencies
        [depTask 1 [2], depTask 2 [3], depTask 3 [1]] := by
  decide

/-- C1 (amended): on the dependency graph {1→[2], 2→[3], 3→[1]} the
detector returns the non-empty collection ["1"] — the id of the root of
the traversal that found the cycle, a task involved in it — rather than
the ids of all three tasks; on the acyclic graph {1→[2], 2→[]} it returns
an empty collection. -/
theorem claim_C1_cycle_detection :
    detect_circular_dependencies [depTask 1 [2], depTask 2 [3], depTask 3 [1]]
      ≠ []
    ∧ detect_circular_dependencies [depTask 1 [2], depTask 2 [3], depTask 3 [1]]
      = ["1"]
    ∧ detect_circular_dependencies [depTask 1 [2], depTask 2 []] = [] := by
  decide

/-! ## C9: self-dependencies -/

/-- Adding an element makes it a member. -/
lemma mem_insertOnce_self (l : List Int) (x : Int) : x ∈ insertOnce l x := by
  unfold insertOnce
  split_ifs with h
  · exact h
  · exact List.mem_cons_self x l

/-- Adding an element keeps the existing members. -/
lemma mem_insertOnce_of_mem {l : List Int} {y : Int} (x : Int) (h : y ∈ l) :
    y ∈ insertOnce l x := by
  unfold insertOnce
  split_ifs
  · exact h
  · exact List.mem_cons_of_mem x h

/-- One-step unfolding of the fuelled DFS. -/
lemma hasCycle_unfold (tm : List (Int × Task)) (fuel : ℕ) (u : Int)
    (v r : List Int) :
    hasCycle tm (fuel + 1) u v r =
      (match depLoop (hasCycle tm fuel) (depsOf tm u)
          (insertOnce v u) (insertOnce r u) with
      | (true, v2, r2) => (true, v2, r2)
      | (false, v2, r2) => (false, v2, r2.erase u)) := rfl

/-- Visiting an id with no map entry in a singleton map just records the
visit: the search returns false and restores the recursion stack. -/
lemma hasCycle_one_absent {t : Task} {i dep : Int} (hne : dep ≠ i)
    (v r : List Int) (hr : dep ∉ r) :
    hasCycle [(i, t)] 1 dep v r = (false, insertOnce v dep, r) := by
  have hbeq : (dep == i) = false := by simp [hne]
  have hdeps : depsOf [(i, t)] dep = [] := by
    simp [depsOf, List.lookup, hbeq]
  rw [show (1 : ℕ) = 0 + 1 from rfl, hasCycle_unfold, hdeps]
  simp only [depLoop]
  have : insertOnce r dep = dep :: r := by simp [insertOnce, hr]
  rw [this]
  simp [List.erase_cons_head]

/-- In the singleton map for id i, the dependency loop reports a cycle as
soon as i itself occurs among the dependencies: i is already visited and
still on the recursion stack. -/
lemma depLoop_finds_self {t : Task} {i : Int} :
    ∀ (deps : List Int) (v r : List Int), i ∈ v → i ∈ r →
      (∀ x ∈ r, x ∈ v) → i ∈ deps →
      (depLoop (hasCycle [(i, t)] 1) deps v r).1 = true := by
  intro deps
  induction deps with
  | nil => intro v r _ _ _ h; simp at h
  | cons dep rest ih =>
    intro v r hiv hir hrv hmem
    by_cases hdv : dep ∈ v
    · rw [depLoop, if_neg (by simpa using hdv)]
      by_cases hdr : dep ∈ r
      · rw [if_pos hdr]
      · rw [if_neg hdr]
        have hne : dep ≠ i := fun h => hdr (h ▸ hir)
        have hrest : i ∈ rest := by
          rcases List.mem_cons.mp hmem with h | h
          · exact absurd h.symm hne
          · exact h
        exact ih v r hiv hir hrv hrest
    · have hne : dep ≠ i := fun h => hdv (h ▸ hiv)
      have hdr : dep ∉ r := fun h => hdv (hrv dep h)
      rw [depLoop, if_pos (by simpa using hdv)]
      rw [hasCycle_one_absent hne v r hdr]
      have hrest : i ∈ rest := by
        rcases List.mem_cons.mp hmem with h | h
        · exact absurd h.symm hne
        · exact h
      exact ih (insertOnce v dep) r (mem_insertOnce_of_mem dep hiv) hir
        (fun x hx => mem_insertOnce_of_mem dep (hrv x hx)) hrest

/-- A task depending on its own id is, alone, reported as a cycle under
its own id. -/
lemma detect_singleton_self {t : Task} {i : Int} (hid : t.id = some i)
    (hdep : i ∈ getDeps t) :
    detect_circular_dependencies [t] = [toString i] := by
  have hbm : build_task_map [t] = [(i, t)] := by
    simp [build_task_map, List.enum, hid, upsert]
  have hlk : depsOf [(i, t)] i = getDeps t := by
    simp [depsOf, List.lookup]
  have hio : insertOnce ([] : List Int) i = [i] := by simp [insertOnce]
  have hrun : (hasCycle [(i, t)] 2 i [] []).1 = true := by
    rw [show (2 : ℕ) = 1 + 1 from rfl, hasCycle_unfold, hlk]
    simp only [hio]
    rcases hres : depLoop (hasCycle [(i, t)] 1) (getDeps t) [i] [i]
      with ⟨b, v2, r2⟩
    have hdl := depLoop_finds_self (t := t) (getDeps t) [i] [i]
      (by simp) (by simp) (by intro x hx; exact hx) hdep
    rw [hres] at hdl
    simp only at hdl
    subst hdl
    rfl
  unfold detect_circular_dependencies
  rw [hbm]
  simp only [show [t].length + 1 = 2 from rfl]
  rcases hres2 : hasCycle [(i, t)] 2 i [] [] with ⟨b, v2, r2⟩
  rw [hres2] at hrun
  simp only at hrun
  subst hrun
  simp [List.foldl, hres2]

/-- C9 counterexample: task 2 depends on itself, yet when another task's
traversal reaches it first, the detector reports only the root id "1" and
never "2" — refuting the claim that the self-looping task's own id is
reported as cycle-involved. -/
theorem claim_C9_counterexample :
    (depTask 2 [2]).id = some 2 ∧ (2 : Int) ∈ getDeps (depTask 2 [2])
    ∧ detect_circular_dependencies [depTask 1 [2], depTask 2 [2]] = ["1"]
    ∧ "2" ∉ detect_circular_dependencies [depTask 1 [2], depTask 2 [2]] := by
  decide

/-- C9 (amended): a task whose own dependencies list contains its own id
counts toward its own blocking count, so its balanced score includes a +20
contribution from itself; detect_circular_dependencies does report a
cycle, but the id it lists is the root of the traversal that found it,
which is the self-looping task's own id when no other task reaches it
first — in particular when it is the only task in the set. -/
theorem claim_C9_self_dependency (all_tasks : List Task) (t : Task) (i : Int)
    (due today : Date) (importance : Int) (hours : ℚ)
    (hmem : t ∈ all_tasks) (hid : t.id = some i) (hdep : i ∈ getDeps t) :
    1 ≤ blocking_count i all_tasks
    ∧ (calculate_smart_balance due importance hours all_tasks i today).1
        = (urgencyPair (toOrdinal due - toOrdinal today)).1
          + (importance : ℝ) * 8 + (effortPair hours).1
          + 20 * (blocking_count i all_tasks : ℝ)
    ∧ detect_circular_dependencies [t] = [toString i] := by
  have hpos : 0 < blocking_count i all_tasks := by
    rw [blocking_count, List.countP_pos_iff]
    exact ⟨t, hmem, by simpa using hdep⟩
  refine ⟨hpos, ?_, detect_singleton_self hid hdep⟩
  simp only [calculate_smart_balance, if_pos hpos]
  ring

/-- C9 witness: the singleton self-depending task 2. -/
theorem claim_C9_self_dependency_witness :
    1 ≤ blocking_count 2 [depTask 2 [2]]
    ∧ (calculate_smart_balance sampleDay 5 1 [depTask 2 [2]] 2 sampleDay).1
        = (urgencyPair (toOrdinal sampleDay - toOrdinal sampleDay)).1
          + ((5 : Int) : ℝ) * 8 + (effortPair 1).1
          + 20 * (blocking_count 2 [depTask 2 [2]] : ℝ)
    ∧ detect_circular_dependencies [depTask 2 [2]] = [toString (2 : Int)] :=
  claim_C9_self_dependency [depTask 2 [2]] (depTask 2 [2]) 2 sampleDay sampleDay
    5 1 (by decide) rfl (by decide)

/-- Inserting a task of score c keeps it ahead of the later-inserted tasks
of score c: on the filter at score c it lands exactly at the front. -/
lemma filter_orderedInsert_of_eq {c : ℝ} (a : ScoredTask)
    (ha : a.priority_score = c) (l : List ScoredTask) :
    (l.orderedInsert scoreGE a).filter (fun x => decide (x.priority_score = c))
      = a :: l.filter (fun x => decide (x.priority_score = c)) := by
  induction l with
  | nil => simp [ha]
  | cons b l ih =>
    rw [List.orderedInsert]
    split_ifs with hr
    · simp [List.filter_cons, ha]
    · have hb : ¬(b.priority_score = c) := by
        simp only [scoreGE, not_le] at hr
        intro h
        rw [h, ← ha] at hr
        exact absurd hr (lt_irrefl _)
      simp [List.filter_cons, hb, ih]

/-- Inserting a task of another score leaves the filter at score c
unchanged. -/
lemma filter_orderedInsert_of_ne {c : ℝ} (a : ScoredTask)
    (ha : ¬(a.priority_score = c)) (l : List ScoredTask) :
    (l.orderedInsert scoreGE a).filter (fun x => decide (x.priority_score = c))
      = l.filter (fun x => decide (x.priority_score = c)) := by
  induction l with
  | nil => simp [ha]
  | cons b l ih =>
    rw [List.orderedInsert]
    split_ifs with hr
    · simp [List.filter_cons, ha]
    · simp [List.filter_cons, ih]

/-- C7: the ranked output is the scored task set sorted by priority_score
in descending order, and the sort is stable — it is a permutation of the
scored input, consecutive scores are non-increasing, and for every score
value the tasks carrying it appear in exactly their input order. -/
theorem claim_C7_stable_ranking (l : List ScoredTask) :
    List.Perm (rankTasks l) l
    ∧ List.Sorted scoreGE (rankTasks l)
    ∧ ∀ c : ℝ,
        (rankTasks l).filter (fun x => decide (x.priority_score = c))
          = l.filter (fun x => decide (x.priority_score = c)) := by
  haveI : IsTotal ScoredTask scoreGE := ⟨fun a b => le_total _ _⟩
  haveI : IsTrans ScoredTask scoreGE :=
    ⟨fun a b c hab hbc => le_trans hbc hab⟩
  refine ⟨List.perm_insertionSort scoreGE l,
    List.sorted_insertionSort scoreGE l, ?_⟩
  intro c
  induction l with
  | nil => simp [rankTasks]
  | cons a l ih =>
    rw [rankTasks] at ih
    rw [rankTasks, List.insertionSort]
    by_cases ha : a.priority_score = c
    · rw [filter_orderedInsert_of_eq a ha]
      simp [List.filter_cons, ha, ih]
    · rw [filter_orderedInsert_of_ne a ha]
      simp [List.filter_cons, ha, ih]

lemma getDeps_pruneTask (ks : List Int) (t : Task) :
    getDeps (pruneTask ks t) = (getDeps t).filter (fun d => decide (d ∈ ks)) := by
  rcases hd : t.dependencies with _ | l <;> simp [getDeps, pruneTask, hd]

lemma lookup_pruneMap (ks : List Int) (tm : List (Int × Task)) (u : Int) :
    List.lookup u (pruneMap ks tm) = (List.lookup u tm).map (pruneTask ks) := by
  induction tm with
  | nil => simp [pruneMap]
  | cons p rest ih =>
    by_cases h : u = p.1
    · simp [pruneMap, List.lookup, h]
    · have hbeq : (u == p.1) = false := by simp [h]
      simp [pruneMap, List.lookup, hbeq] at ih ⊢
      exact ih

lemma keys_pruneMap (ks : List Int) (tm : List (Int × Task)) :
    (pruneMap ks tm).map Prod.fst = tm.map Prod.fst := by
  simp [pruneMap]

lemma upsert_pruneMap (ks : List Int) (k : Int) (v : Task) :
    ∀ m : List (Int × Task),
      upsert k (pruneTask ks v) (pruneMap ks m) = pruneMap ks (upsert k v m) := by
  intro m
  induction m with
  | nil => simp [upsert, pruneMap]
  | cons p rest ih =>
    by_cases h : k = p.1
    · simp [upsert, pruneMap, h]
    · simp [upsert, pruneMap, h] at ih ⊢
      exact ih

lemma build_task_map_prune (ks : List Int) (tasks : List Task) :
    build_task_map (tasks.map (pruneTask ks)) = pruneMap ks (build_task_map tasks) := by
  unfold build_task_map
  rw [List.enum_map, List.foldl_map]
  simp only [Prod.map, id_eq]
  have aux : ∀ (l : List (ℕ × Task)) (acc : List (Int × Task)),
      List.foldl (fun m q => upsert ((pruneTask ks q.2).id.getD (q.1 : Int))
          (pruneTask ks q.2) m) (pruneMap ks acc) l
        = pruneMap ks (List.foldl (fun m q => upsert (q.2.id.getD (q.1 : Int)) q.2 m) acc l) := by
    intro l
    induction l with
    | nil => intro acc; rfl
    | cons q rest ih =>
      intro acc
      simp only [List.foldl_cons]
      rw [show (pruneTask ks q.2).id = q.2.id from rfl, upsert_pruneMap]
      exact ih _
  exact aux tasks.enum []

lemma mem_insertOnce_iff {l : List Int} {x y : Int} :
    y ∈ insertOnce l x ↔ y = x ∨ y ∈ l := by
  unfold insertOnce
  split_ifs with h
  · constructor
    · intro hy; exact Or.inr hy
    · rintro (rfl | hy)
      · exact h
      · exact hy
  · simp [List.mem_cons]

lemma lookup_eq_none (tm : List (Int × Task)) (u : Int)
    (h : u ∉ tm.map Prod.fst) : List.lookup u tm = none := by
  induction tm with
  | nil => rfl
  | cons p rest ih =>
    simp only [List.map_cons, List.mem_cons, not_or] at h
    have hbeq : (u == p.1) = false := by simp [h.1]
    simp only [List.lookup, hbeq]
    exact ih h.2

lemma depLoop_cons (next : Int → List Int → List Int → Bool × List Int × List Int)
    (dep : Int) (rest : List Int) (v r : List Int) :
    depLoop next (dep :: rest) v r =
      (if dep ∉ v then
        match next dep v r with
        | (true, v1, r1) => (true, v1, r1)
        | (false, v1, r1) => depLoop next rest v1 r1
      else if dep ∈ r then (true, v, r)
      else depLoop next rest v r) := rfl

lemma hasCycle_absent (tm : List (Int × Task)) (fuel : ℕ) (u : Int)
    (v r : List Int) (hlk : List.lookup u tm = none) (hur : u ∉ r) :
    ∃ v2, hasCycle tm fuel u v r = (false, v2, r)
      ∧ (∀ x ∈ v, x ∈ v2) ∧ (∀ x ∈ v2, x ∈ v ∨ x = u) := by
  cases fuel with
  | zero => exact ⟨v, rfl, fun x hx => hx, fun x hx => Or.inl hx⟩
  | succ f =>
    have hdeps : depsOf tm u = [] := by simp [depsOf, hlk]
    have hro : insertOnce r u = u :: r := by simp [insertOnce, hur]
    refine ⟨insertOnce v u, ?_, fun x hx => mem_insertOnce_of_mem u hx,
      fun x hx => (mem_insertOnce_iff.mp hx).symm⟩
    rw [hasCycle_unfold, hdeps]
    simp only [depLoop, hro, List.erase_cons_head]

lemma depLoop_cons_proj (next : Int → List Int → List Int → Bool × List Int × List Int)
    (dep : Int) (rest : List Int) (v r : List Int) :
    depLoop next (dep :: rest) v r =
      (if dep ∉ v then
        (if (next dep v r).1 then
          (true, (next dep v r).2.1, (next dep v r).2.2)
        else depLoop next rest (next dep v r).2.1 (next dep v r).2.2)
      else if dep ∈ r then (true, v, r)
      else depLoop next rest v r) := by
  rw [depLoop_cons]
  rcases h : next dep v r with ⟨b, w, s⟩
  cases b <;> simp

lemma depLoop_prune (tmO : List (Int × Task)) (ks : List Int)
    (hks : ks = tmO.map Prod.fst) (fuel : ℕ) (ih : PruneInv tmO ks fuel) :
    ∀ (deps : List Int) (v1 v2 r : List Int),
      (∀ k, k ∈ ks → (k ∈ v1 ↔ k ∈ v2)) →
      (∀ x, x ∈ r → x ∈ ks) →
      (∀ x, x ∈ r → x ∈ v1) →
      (∀ x, x ∈ r → x ∈ v2) →
      (depLoop (hasCycle tmO fuel) deps v1 r).1
        = (depLoop (hasCycle (pruneMap ks tmO) fuel)
            (deps.filter (fun d => decide (d ∈ ks))) v2 r).1
      ∧ (∀ k, k ∈ ks →
          ((k ∈ (depLoop (hasCycle tmO fuel) deps v1 r).2.1)
            ↔ (k ∈ (depLoop (hasCycle (pruneMap ks tmO) fuel)
                (deps.filter (fun d => decide (d ∈ ks))) v2 r).2.1)))
      ∧ (∀ x, x ∈ v1 → x ∈ (depLoop (hasCycle tmO fuel) deps v1 r).2.1)
      ∧ (∀ x, x ∈ v2 → x ∈ (depLoop (hasCycle (pruneMap ks tmO) fuel)
            (deps.filter (fun d => decide (d ∈ ks))) v2 r).2.1)
      ∧ ((depLoop (hasCycle tmO fuel) deps v1 r).1 = false →
          (depLoop (hasCycle tmO fuel) deps v1 r).2.2 = r
          ∧ (depLoop (hasCycle (pruneMap ks tmO) fuel)
              (deps.filter (fun d => decide (d ∈ ks))) v2 r).2.2 = r) := by
  intro deps
  induction deps with
  | nil =>
    intro v1 v2 r hag hrk hrv1 hrv2
    exact ⟨rfl, hag, fun x hx => hx, fun x hx => hx, fun _ => ⟨rfl, rfl⟩⟩
  | cons dep rest ihd =>
    intro v1 v2 r hag hrk hrv1 hrv2
    by_cases hkd : dep ∈ ks
    · have hfil : (dep :: rest).filter (fun d => decide (d ∈ ks))
          = dep :: rest.filter (fun d => decide (d ∈ ks)) := by
        simp [List.filter_cons, hkd]
      rw [hfil]
      by_cases hdv1 : dep ∈ v1
      · have hdv2 : dep ∈ v2 := (hag dep hkd).mp hdv1
        rw [depLoop_cons_proj, depLoop_cons_proj, if_neg (not_not_intro hdv1),
          if_neg (not_not_intro hdv2)]
        by_cases hdr : dep ∈ r
        · rw [if_pos hdr, if_pos hdr]
          exact ⟨rfl, hag, fun x hx => hx, fun x hx => hx,
            fun h => absurd h (by simp)⟩
        · rw [if_neg hdr, if_neg hdr]
          exact ihd v1 v2 r hag hrk hrv1 hrv2
      · have hdv2 : dep ∉ v2 := fun h => hdv1 ((hag dep hkd).mpr h)
        rw [depLoop_cons_proj, depLoop_cons_proj, if_pos hdv1, if_pos hdv2]
        obtain ⟨c1, c2, c3, c4, c5⟩ :=
          ih dep v1 v2 r hkd hag hrk hrv1 hrv2 hdv1 hdv2
        by_cases hb : (hasCycle tmO fuel dep v1 r).1 = true
        · have hb2 : (hasCycle (pruneMap ks tmO) fuel dep v2 r).1 = true := by
            rw [← c1]; exact hb
          rw [if_pos hb, if_pos hb2]
          exact ⟨rfl, c2, c3, c4, fun h => absurd h (by simp)⟩
        · have hb1 : (hasCycle tmO fuel dep v1 r).1 = false := by
            simpa using hb
          have hb2 : (hasCycle (pruneMap ks tmO) fuel dep v2 r).1 = false := by
            rw [← c1]; exact hb1
          rw [if_neg hb, if_neg (by simp [hb2])]
          obtain ⟨hs1, hs2⟩ := c5 hb1
          rw [hs1, hs2]
          obtain ⟨d1, d2, d3, d4, d5⟩ := ihd
            (hasCycle tmO fuel dep v1 r).2.1
            (hasCycle (pruneMap ks tmO) fuel dep v2 r).2.1 r c2 hrk
            (fun x hx => c3 x (hrv1 x hx)) (fun x hx => c4 x (hrv2 x hx))
          exact ⟨d1, d2, fun x hx => d3 x (c3 x hx),
            fun x hx => d4 x (c4 x hx), d5⟩
    · have hfil : (dep :: rest).filter (fun d => decide (d ∈ ks))
          = rest.filter (fun d => decide (d ∈ ks)) := by
        simp [List.filter_cons, hkd]
      rw [hfil, depLoop_cons_proj]
      by_cases hdv1 : dep ∈ v1
      · rw [if_neg (not_not_intro hdv1)]
        have hdr : dep ∉ r := fun h => hkd (hrk dep h)
        rw [if_neg hdr]
        exact ihd v1 v2 r hag hrk hrv1 hrv2
      · rw [if_pos hdv1]
        have hdr : dep ∉ r := fun h => hdv1 (hrv1 dep h)
        have hlk : List.lookup dep tmO = none := by
          apply lookup_eq_none
          rw [← hks]
          exact hkd
        obtain ⟨w1, heq, hmono, hsub⟩ :=
          hasCycle_absent tmO fuel dep v1 r hlk hdr
        rw [heq]
        simp only [Bool.false_eq_true, if_false]
        have hag2 : ∀ k, k ∈ ks → (k ∈ w1 ↔ k ∈ v2) := by
          intro k hk
          constructor
          · intro hkw
            rcases hsub k hkw with h | h
            · exact (hag k hk).mp h
            · subst h
              exact absurd hk hkd
          · intro hkv2
            exact hmono k ((hag k hk).mpr hkv2)
        obtain ⟨d1, d2, d3, d4, d5⟩ := ihd w1 v2 r hag2 hrk
          (fun x hx => hmono x (hrv1 x hx)) hrv2
        exact ⟨d1, d2, fun x hx => d3 x (hmono x hx), d4, d5⟩

lemma depsOf_pruneMap (ks : List Int) (tm : List (Int × Task)) (u : Int) :
    depsOf (pruneMap ks tm) u = (depsOf tm u).filter (fun d => decide (d ∈ ks)) := by
  unfold depsOf
  rw [lookup_pruneMap]
  cases List.lookup u tm with
  | none => rfl
  | some t => simp [getDeps_pruneTask]

lemma hasCycle_succ_proj (tm : List (Int × Task)) (fuel : ℕ) (u : Int)
    (v r : List Int) :
    hasCycle tm (fuel + 1) u v r =
      (if (depLoop (hasCycle tm fuel) (depsOf tm u)
            (insertOnce v u) (insertOnce r u)).1 = true then
        (true,
          (depLoop (hasCycle tm fuel) (depsOf tm u)
            (insertOnce v u) (insertOnce r u)).2.1,
          (depLoop (hasCycle tm fuel) (depsOf tm u)
            (insertOnce v u) (insertOnce r u)).2.2)
      else
        (false,
          (depLoop (hasCycle tm fuel) (depsOf tm u)
            (insertOnce v u) (insertOnce r u)).2.1,
          (depLoop (hasCycle tm fuel) (depsOf tm u)
            (insertOnce v u) (insertOnce r u)).2.2.erase u)) := by
  rw [hasCycle_unfold]
  rcases h : depLoop (hasCycle tm fuel) (depsOf tm u)
      (insertOnce v u) (insertOnce r u) with ⟨b, w, s⟩
  cases b <;> simp

lemma hasCycle_prune (tmO : List (Int × Task)) (ks : List Int)
    (hks : ks = tmO.map Prod.fst) : ∀ fuel : ℕ, PruneInv tmO ks fuel := by
  intro fuel
  induction fuel with
  | zero =>
    intro u v1 v2 r hu hag hrk hrv1 hrv2 hu1 hu2
    exact ⟨rfl, hag, fun x hx => hx, fun x hx => hx, fun _ => ⟨rfl, rfl⟩⟩
  | succ f ihf =>
    intro u v1 v2 r hu hag hrk hrv1 hrv2 hu1 hu2
    have hdp := depsOf_pruneMap ks tmO u
    rw [hasCycle_succ_proj, hasCycle_succ_proj, hdp]
    have hag2 : ∀ k, k ∈ ks → (k ∈ insertOnce v1 u ↔ k ∈ insertOnce v2 u) := by
      intro k hk
      rw [mem_insertOnce_iff, mem_insertOnce_iff]
      exact or_congr Iff.rfl (hag k hk)
    have hrk2 : ∀ x, x ∈ insertOnce r u → x ∈ ks := by
      intro x hx
      rcases mem_insertOnce_iff.mp hx with h | h
      · subst h; exact hu
      · exact hrk x h
    have hrv12 : ∀ x, x ∈ insertOnce r u → x ∈ insertOnce v1 u := by
      intro x hx
      rcases mem_insertOnce_iff.mp hx with h | h
      · subst h; exact mem_insertOnce_self v1 x
      · exact mem_insertOnce_of_mem u (hrv1 x h)
    have hrv22 : ∀ x, x ∈ insertOnce r u → x ∈ insertOnce v2 u := by
      intro x hx
      rcases mem_insertOnce_iff.mp hx with h | h
      · subst h; exact mem_insertOnce_self v2 x
      · exact mem_insertOnce_of_mem u (hrv2 x h)
    obtain ⟨c1, c2, c3, c4, c5⟩ := depLoop_prune tmO ks hks f ihf
      (depsOf tmO u) (insertOnce v1 u) (insertOnce v2 u) (insertOnce r u)
      hag2 hrk2 hrv12 hrv22
    by_cases hb : (depLoop (hasCycle tmO f) (depsOf tmO u)
        (insertOnce v1 u) (insertOnce r u)).1 = true
    · have hb2 : (depLoop (hasCycle (pruneMap ks tmO) f)
          ((depsOf tmO u).filter (fun d => decide (d ∈ ks)))
          (insertOnce v2 u) (insertOnce r u)).1 = true := by
        rw [← c1]; exact hb
      rw [if_pos hb, if_pos hb2]
      exact ⟨rfl, c2, fun x hx => c3 x (mem_insertOnce_of_mem u hx),
        fun x hx => c4 x (mem_insertOnce_of_mem u hx),
        fun h => absurd h (by simp)⟩
    · have hb1 : (depLoop (hasCycle tmO f) (depsOf tmO u)
          (insertOnce v1 u) (insertOnce r u)).1 = false := by simpa using hb
      have hb2 : (depLoop (hasCycle (pruneMap ks tmO) f)
          ((depsOf tmO u).filter (fun d => decide (d ∈ ks)))
          (insertOnce v2 u) (insertOnce r u)).1 = false := by
        rw [← c1]; exact hb1
      rw [if_neg hb, if_neg (by simp [hb2])]
      obtain ⟨hs1, hs2⟩ := c5 hb1
      rw [hs1, hs2]
      have hur : u ∉ r := fun h => hu1 (hrv1 u h)
      have her : (insertOnce r u).erase u = r := by
        rw [show insertOnce r u = u :: r from by simp [insertOnce, hur],
          List.erase_cons_head]
      rw [her]
      exact ⟨rfl, c2, fun x hx => c3 x (mem_insertOnce_of_mem u hx),
        fun x hx => c4 x (mem_insertOnce_of_mem u hx), fun _ => ⟨rfl, rfl⟩⟩

lemma detect_fold_prune (tmO : List (Int × Task)) (ks : List Int)
    (hks : ks = tmO.map Prod.fst) (fuel : ℕ) :
    ∀ (l : List (Int × Task)) (v1 v2 : List Int) (circ : List String),
      (∀ p, p ∈ l → p.1 ∈ ks) →
      (∀ k, k ∈ ks → (k ∈ v1 ↔ k ∈ v2)) →
      (List.foldl (fun st p =>
          if p.1 ∉ st.1 then
            ((hasCycle tmO fuel p.1 st.1 []).2.1,
              if (hasCycle tmO fuel p.1 st.1 []).1 then st.2 ++ [toString p.1]
              else st.2)
          else st) (v1, circ) l).2
      = (List.foldl (fun st p =>
          if p.1 ∉ st.1 then
            ((hasCycle (pruneMap ks tmO) fuel p.1 st.1 []).2.1,
              if (hasCycle (pruneMap ks tmO) fuel p.1 st.1 []).1 then
                st.2 ++ [toString p.1]
              else st.2)
          else st) (v2, circ) (pruneMap ks l)).2 := by
  intro l
  induction l with
  | nil =>
    intro v1 v2 circ hkeys hag
    rfl
  | cons p rest ihl =>
    intro v1 v2 circ hkeys hag
    have hk : p.1 ∈ ks := hkeys p (List.mem_cons_self p rest)
    have hkeys2 : ∀ q, q ∈ rest → q.1 ∈ ks :=
      fun q hq => hkeys q (List.mem_cons_of_mem p hq)
    rw [show pruneMap ks (p :: rest)
        = (p.1, pruneTask ks p.2) :: pruneMap ks rest from rfl]
    simp only [List.foldl_cons]
    by_cases hv : p.1 ∈ v1
    · have hv2 : p.1 ∈ v2 := (hag _ hk).mp hv
      rw [if_neg (not_not_intro hv), if_neg (not_not_intro hv2)]
      exact ihl v1 v2 circ hkeys2 hag
    · have hv2 : p.1 ∉ v2 := fun h => hv ((hag _ hk).mpr h)
      rw [if_pos hv, if_pos hv2]
      obtain ⟨c1, c2, c3, c4, c5⟩ := hasCycle_prune tmO ks hks fuel p.1 v1 v2 []
        hk hag (by intro x hx; simp at hx) (by intro x hx; simp at hx)
        (by intro x hx; simp at hx) hv hv2
      by_cases hb : (hasCycle tmO fuel p.1 v1 []).1 = true
      · have hb2 : (hasCycle (pruneMap ks tmO) fuel p.1 v2 []).1 = true := by
          rw [← c1]; exact hb
        rw [if_pos hb, if_pos hb2]
        exact ihl _ _ _ hkeys2 c2
      · have hb1 : (hasCycle tmO fuel p.1 v1 []).1 = false := by simpa using hb
        have hb2 : (hasCycle (pruneMap ks tmO) fuel p.1 v2 []).1 = false := by
          rw [← c1]; exact hb1
        rw [if_neg hb, if_neg (by simp [hb2])]
        exact ihl _ _ _ hkeys2 c2

lemma detect_prune (tasks : List Task) :
    detect_circular_dependencies (pruneTasks tasks)
      = detect_circular_dependencies tasks := by
  unfold detect_circular_dependencies
  rw [show pruneTasks tasks = tasks.map (pruneTask (presentIds tasks)) from rfl]
  rw [build_task_map_prune, List.length_map]
  exact (detect_fold_prune (build_task_map tasks) (presentIds tasks) rfl
    (tasks.length + 1) (build_task_map tasks) [] [] []
    (fun p hp => List.mem_map_of_mem Prod.fst hp) (fun k _ => Iff.rfl)).symm

lemma blocking_count_prune (tasks : List Task) {i : Int}
    (hi : i ∈ presentIds tasks) :
    blocking_count i (pruneTasks tasks) = blocking_count i tasks := by
  unfold blocking_count pruneTasks
  rw [List.countP_map]
  apply List.countP_congr
  intro t _
  simp [Function.comp, getDeps_pruneTask, List.mem_filter, hi]

lemma calculate_score_isSome (strategy : String) (task : Task)
    (all_tasks : List Task) (today : Date)
    (hval : (validate_task task).1 = true) :
    (calculate_score strategy task all_tasks today).isSome = true := by
  obtain ⟨id, title, due, hrs, imp, deps⟩ := task
  rcases title with _ | t1
  · simp [validate_task] at hval
  rcases due with _ | dv
  · simp [validate_task] at hval
  rcases hrs with _ | h1
  · simp [validate_task] at hval
  rcases imp with _ | i1
  · simp [validate_task] at hval
  simp only [validate_task] at hval
  rcases dv with s | d
  · split_ifs at hval with hc1 hc2
    cases hp : parseDate s with
    | none => simp [hp] at hval
    | some d =>
      rw [calculate_score_of_str strategy all_tasks today rfl hp]
      rfl
  · split_ifs at hval with hc1 hc2
    rw [calculate_score_of_dat strategy all_tasks today rfl]
    rfl

/-- C8: for every task set whose dependency lists may contain ids of tasks
not present in the set, detect_circular_dependencies and calculate_score
complete normally: deleting every edge to an absent id leaves the
detector's output unchanged (an edge to an absent id never causes a cycle
to be reported), absent ids contribute nothing to any present task's
blocking count, and scoring any validated task returns a value. -/
theorem claim_C8_dangling_dependencies (tasks : List Task) :
    detect_circular_dependencies (pruneTasks tasks)
      = detect_circular_dependencies tasks
    ∧ (∀ i, i ∈ presentIds tasks →
        blocking_count i (pruneTasks tasks) = blocking_count i tasks)
    ∧ (∀ (strategy : String) (task : Task) (all_tasks : List Task)
        (today : Date), (validate_task task).1 = true →
        (calculate_score strategy task all_tasks today).isSome = true) :=
  ⟨detect_prune tasks, fun i hi => blocking_count_prune tasks hi,
    fun strategy task all_tasks today hval =>
      calculate_score_isSome strategy task all_tasks today hval⟩

/-- C8 witness: a task set with the dangling dependency id 99. -/
theorem claim_C8_dangling_dependencies_witness :
    detect_circular_dependencies (pruneTasks [depTask 1 [99], depTask 2 [1]])
      = detect_circular_dependencies [depTask 1 [99], depTask 2 [1]]
    ∧ blocking_count 1 (pruneTasks [depTask 1 [99], depTask 2 [1]])
      = blocking_count 1 [depTask 1 [99], depTask 2 [1]]
    ∧ (calculate_score "smart_balance"
        ⟨some 1, some "w", some (DateVal.dat sampleDay), some 2, some 5,
          some [99]⟩ [] sampleDay).isSome = true :=
  ⟨(claim_C8_dangling_dependencies [depTask 1 [99], depTask 2 [1]]).1,
    (claim_C8_dangling_dependencies [depTask 1 [99], depTask 2 [1]]).2.1 1 (by decide),
    (claim_C8_dangling_dependencies [depTask 1 [99], depTask 2 [1]]).2.2 "smart_balance" _ [] sampleDay
      (by decide)⟩

end TaskAnalyser
